import Mathlib

/-!
Verification of the resilient API client pattern of the miniapp repository
(the PicnicAPI class of src/picnic-planner and the TodoAPI class of the todo
miniapp) against its natural-language specification.

JavaScript strings are modelled as lists of characters (JStr), JavaScript
Maps as insertion-ordered association lists, and the asynchronous
request/retry and WebSocket dispatch code as pure state-passing functions.
The bounded recursion of makeRequest (its retryCount parameter, bounded by
the constructor constant retryAttempts = 3) is translated with an explicit
remaining-retry budget so that every definition is structurally recursive
and executable: budget = retryAttempts - retryCount, and the source guard
retryCount < retryAttempts is exactly budget > 0.
-/

namespace MiniappClient

/-- JavaScript strings, modelled as their character lists. -/
abbrev JStr := List Char

/-! ## PicnicAPI.makeRequest and PicnicAPI.handleAuthError

Source: src/picnic-planner/tests/unit-tests.js, lines 1993-2048.
Constructor constants (lines 1805-1806): retryAttempts = 3, retryDelay = 1000.

The fetch of attempt number i either fails at the transport level with a
JavaScript error (connection refused, DNS failure, ...) or yields an HTTP
response with a status, a status text and an optional parsed-body message
field.  The environment fixes the outcome of every fetch and of every
invocation of window.olamoAuth.refreshToken(). -/

/-- this.retryAttempts = 3 (constructor). -/
def retryAttempts : Nat := 3

/-- this.retryDelay = 1000 (constructor). -/
def retryDelay : Nat := 1000

/-- A thrown JavaScript error: its name ('TypeError', 'Error', ...) and message. -/
structure JsError where
  name : JStr
  msg : JStr
deriving DecidableEq

/-- Outcome of one fetch(url, options) call. -/
inductive FetchOutcome where
  /-- The fetch promise rejected with a transport-level error. -/
  | netErr (e : JsError)
  /-- An HTTP response arrived: status, statusText, the optional message field
      of the parsed error body (none when the body is not JSON or has no
      message), and the parsed body for the success path. -/
  | resp (status : Nat) (statusText : JStr) (jsonMsg : Option JStr) (body : JStr)

/-- The outside world of one makeRequest call: the outcome of the i-th fetch,
whether window.olamoAuth.refreshToken is configured, and the outcome of the
i-th refreshToken() invocation (some newToken, or none when it rejects). -/
structure ReqEnv where
  fetch : Nat → FetchOutcome
  refreshAvailable : Bool
  refresh : Nat → Option JStr

/-- Mutable client state threaded through one makeRequest call, together with
instrumentation counters: this.auth, the number of fetch calls made, the
number of refreshToken() invocations, and the setTimeout delays awaited
between network retries, in order. -/
structure RState where
  auth : JStr
  fetchCount : Nat
  refreshCount : Nat
  delays : List Nat
deriving DecidableEq

/-- The error thrown by handleAuthError when the token refresh rejects. -/
def authFailedError : JsError :=
  ⟨"Error".toList, "Authentication failed. Please login again.".toList⟩

/-- PicnicAPI.handleAuthError (unit-tests.js lines 2038-2048): when a refresher
is configured, invoke it; on success store the new token, on rejection throw
the authentication-failed error.  Returns the new state and the thrown error,
if any. -/
def handleAuthError (env : ReqEnv) (st : RState) : RState × Option JsError :=
  if env.refreshAvailable then
    match env.refresh st.refreshCount with
    | some tok => ({ st with auth := tok, refreshCount := st.refreshCount + 1 }, none)
    | none => ({ st with refreshCount := st.refreshCount + 1 }, some authFailedError)
  else (st, none)

/-- errorData.message || `HTTP ${status}: ${statusText}` — the JavaScript
falsy test makes an empty message fall back to the status line too. -/
def httpErrorMsg (jsonMsg : Option JStr) (status : Nat) (statusText : JStr) : JStr :=
  let d := "HTTP ".toList ++ (toString status).toList ++ ": ".toList ++ statusText
  match jsonMsg with
  | some m => if m.isEmpty then d else m
  | none => d

/-- response.ok: the status is in the range 200-299. -/
def responseOk (status : Nat) : Bool :=
  decide (200 ≤ status) && decide (status < 300)

/-- Does the list pat occur at the start of s? -/
def startsWithL : JStr → JStr → Bool
  | [], _ => true
  | _ :: _, [] => false
  | a :: as, b :: bs => decide (a = b) && startsWithL as bs

/-- error.message.includes(pat). -/
def containsSub (pat : JStr) : JStr → Bool
  | [] => pat.isEmpty
  | c :: rest => startsWithL pat (c :: rest) || containsSub pat rest

/-- The retry guard of makeRequest's catch block:
error.name === 'TypeError' || error.message.includes('fetch'). -/
def retryableErr (e : JsError) : Bool :=
  decide (e.name = "TypeError".toList) || containsSub "fetch".toList e.msg

/-- PicnicAPI.makeRequest (unit-tests.js lines 1993-2033), with the remaining
retry budget retryAttempts - retryCount as the recursion argument, so the
source guard retryCount < retryAttempts is the budget being non-zero and the
delay retryDelay * (retryCount + 1) is retryDelay * (retryAttempts - budget + 1).

On a 401 response handleAuthError runs first; if it returns normally and the
guard holds, the whole call recurses (the returned promise is not awaited
inside the try, so its rejection bypasses this call's catch).  A 401 past the
guard falls through to the !response.ok throw.  Any error thrown inside the
try (handleAuthError's throw, the HTTP-error throw, a transport rejection of
fetch) reaches the catch, which retries after a linearly growing delay when
the guard holds and the error is retryable, and otherwise rethrows. -/
def makeRequestAux (env : ReqEnv) (budget : Nat) (st0 : RState) :
    RState × Except JsError JStr :=
  let st := { st0 with fetchCount := st0.fetchCount + 1 }
  let retryNum := retryAttempts - budget + 1
  match env.fetch st0.fetchCount with
  | FetchOutcome.resp status statusText jsonMsg body =>
    if status = 401 then
      match handleAuthError env st with
      | (st1, none) =>
        match budget with
        | b + 1 => makeRequestAux env b st1
        | 0 =>
          -- retryCount ≥ retryAttempts: fall through to the !response.ok throw;
          -- the catch guard retryCount < retryAttempts is false, so it rethrows.
          (st1, Except.error ⟨"Error".toList, httpErrorMsg jsonMsg status statusText⟩)
      | (st1, some e) =>
        match budget with
        | b + 1 =>
          if retryableErr e then
            makeRequestAux env b { st1 with delays := st1.delays ++ [retryDelay * retryNum] }
          else (st1, Except.error e)
        | 0 => (st1, Except.error e)
    else if responseOk status then (st, Except.ok body)
    else
      let e : JsError := ⟨"Error".toList, httpErrorMsg jsonMsg status statusText⟩
      match budget with
      | b + 1 =>
        if retryableErr e then
          makeRequestAux env b { st with delays := st.delays ++ [retryDelay * retryNum] }
        else (st, Except.error e)
      | 0 => (st, Except.error e)
  | FetchOutcome.netErr e =>
    match budget with
    | b + 1 =>
      if retryableErr e then
        makeRequestAux env b { st with delays := st.delays ++ [retryDelay * retryNum] }
      else (st, Except.error e)
    | 0 => (st, Except.error e)

/-- One top-level makeRequest call: retryCount starts at 0, so the budget is
the full retryAttempts. -/
def runMakeRequest (env : ReqEnv) (auth : JStr) : RState × Except JsError JStr :=
  makeRequestAux env retryAttempts ⟨auth, 0, 0, []⟩

deriving instance DecidableEq for Except

/-! Concrete environments used to settle claims C1 and C3. -/

/-- The server answers 401 (empty error body) to the first k requests and 200
with body "okbody" afterwards; the token refresh always succeeds. -/
def env401 (k : Nat) : ReqEnv where
  fetch := fun i =>
    if i < k then FetchOutcome.resp 401 "Unauthorized".toList none []
    else FetchOutcome.resp 200 "OK".toList none "okbody".toList
  refreshAvailable := true
  refresh := fun _ => some "tok2".toList

/-- Every request is answered 401 and every refresh succeeds. -/
def envAll401 : ReqEnv where
  fetch := fun _ => FetchOutcome.resp 401 "Unauthorized".toList none []
  refreshAvailable := true
  refresh := fun _ => some "tok2".toList

/-- The first request is answered 401 and the token refresh rejects. -/
def envRefreshFails : ReqEnv where
  fetch := fun _ => FetchOutcome.resp 401 "Unauthorized".toList none []
  refreshAvailable := true
  refresh := fun _ => none

/-- Every fetch fails at the transport level with a retryable TypeError. -/
def envAllNet : ReqEnv where
  fetch := fun _ => FetchOutcome.netErr ⟨"TypeError".toList, "Failed to fetch".toList⟩
  refreshAvailable := true
  refresh := fun _ => some "tok2".toList

/-- The first fetch fails at the transport level, the second succeeds. -/
def envNetOnce : ReqEnv where
  fetch := fun i =>
    if i = 0 then FetchOutcome.netErr ⟨"TypeError".toList, "Failed to fetch".toList⟩
    else FetchOutcome.resp 200 "OK".toList none "okbody".toList
  refreshAvailable := true
  refresh := fun _ => some "tok2".toList

/-- A transport failure with a non-retryable error (name not TypeError,
message without "fetch"). -/
def envNetBoom : ReqEnv where
  fetch := fun _ => FetchOutcome.netErr ⟨"Error".toList, "boom".toList⟩
  refreshAvailable := true
  refresh := fun _ => some "tok2".toList

/-! ## PicnicAPI WebSocket state: subscriptions, event handlers, dispatch

Source: src/picnic-planner/tests/unit-tests.js, lines 2393-2552.
Constructor constants (lines 1807-1809): wsReconnectAttempts = 0,
maxWsReconnectAttempts = 10, wsReconnectDelay = 1000.

this.subscriptions and this.eventHandlers are JavaScript Maps, modelled as
insertion-ordered association lists (Map.set keeps the original position of
an existing key and appends a new one; Map.delete removes the entry).
A callback value records an identity, the unsubscribe(collection, eventType)
calls it performs when invoked, and whether it throws. -/

/-- this.wsReconnectDelay = 1000 (constructor). -/
def wsReconnectDelay : Nat := 1000

/-- this.maxWsReconnectAttempts = 10 (constructor). -/
def maxWsReconnectAttempts : Nat := 10

/-- A registered callback: its identity, the unsubscribe(collection, eventType)
calls it makes when invoked, and whether it throws when invoked. -/
structure Callback where
  id : Nat
  unsubs : List (JStr × Option JStr)
  throws : Bool
deriving DecidableEq

/-- A WebSocket control frame sent by the client (JSON.stringify of
{type: 'subscribe'|'unsubscribe', collection, eventType}). -/
inductive Frame where
  | subscribeF (collection : JStr) (eventType : Option JStr)
  | unsubscribeF (collection : JStr) (eventType : Option JStr)
deriving DecidableEq

/-- The argument object a callback is invoked with.  undef models emitting an
event with no data argument; obj models an object literal whose absent fields
are none ({collection, data, id} has type := none, and so on). -/
inductive EmitPayload where
  | undef
  | obj (type : Option JStr) (collection : Option JStr) (data : Option JStr) (id : Option JStr)
deriving DecidableEq

/-- One observable callback invocation, in temporal order: an event-handler
call by emit, the console.error of emit's catch block, or a subscription
callback call by handleWebSocketMessage. -/
inductive LogEntry where
  | handlerCall (event : JStr) (cbId : Nat) (payload : EmitPayload)
  | consoleError (event : JStr) (cbId : Nat)
  | subCall (key : JStr) (cbId : Nat) (payload : EmitPayload)
deriving DecidableEq

/-- The PicnicAPI client state relevant to the WebSocket layer, with
instrumentation: the frames sent on the socket, the scheduled reconnect
delays and the invocation log, each in order. -/
structure Client where
  subscriptions : List (JStr × Callback)
  eventHandlers : List (JStr × List Callback)
  wsOpen : Bool
  wsReconnectAttempts : Nat
  sent : List Frame
  delays : List Nat
  log : List LogEntry
deriving DecidableEq

/-- Map.get: the value stored under key k, looking from the front. -/
def mapFind {α : Type} : List (JStr × α) → JStr → Option α
  | [], _ => none
  | (k', v) :: rest, k => if k' = k then some v else mapFind rest k

/-- Map.set: update an existing key in place, else append. -/
def mapSet {α : Type} : List (JStr × α) → JStr → α → List (JStr × α)
  | [], k, v => [(k, v)]
  | (k', v') :: rest, k, v =>
    if k' = k then (k, v) :: rest else (k', v') :: mapSet rest k v

/-- Map.delete: remove the entry stored under key k. -/
def mapDelete {α : Type} : List (JStr × α) → JStr → List (JStr × α)
  | [], _ => []
  | (k', v') :: rest, k => if k' = k then rest else (k', v') :: mapDelete rest k

/-- The subscription key of subscribe/unsubscribe:
eventType ? collection + ':' + eventType : collection — a JavaScript falsy
test, so a null or empty eventType yields the bare collection name. -/
def encodeKey (collection : JStr) (eventType : Option JStr) : JStr :=
  match eventType with
  | some ev => if ev.isEmpty then collection else collection ++ ':' :: ev
  | none => collection

/-- PicnicAPI.subscribe (lines 2463-2477): store the callback under the key,
and send a subscribe control frame when the socket is open.  (The returned
unsubscribe closure is not modelled; unsubscribe is called directly.) -/
def subscribe (cl : Client) (collection : JStr) (cb : Callback) (eventType : Option JStr) :
    Client :=
  let cl1 := { cl with subscriptions := mapSet cl.subscriptions (encodeKey collection eventType) cb }
  if cl1.wsOpen then { cl1 with sent := cl1.sent ++ [Frame.subscribeF collection eventType] }
  else cl1

/-- PicnicAPI.unsubscribe (lines 2482-2494): delete the key, and send an
unsubscribe control frame when the socket is open. -/
def unsubscribe (cl : Client) (collection : JStr) (eventType : Option JStr) : Client :=
  let cl1 := { cl with subscriptions := mapDelete cl.subscriptions (encodeKey collection eventType) }
  if cl1.wsOpen then { cl1 with sent := cl1.sent ++ [Frame.unsubscribeF collection eventType] }
  else cl1

/-- Run the unsubscribe calls a callback body performs, in order. -/
def runUnsubs : List (JStr × Option JStr) → Client → Client
  | [], cl => cl
  | (c, e) :: rest, cl => runUnsubs rest (unsubscribe cl c e)

/-- Invoke a callback body: perform its unsubscribe calls. -/
def invokeActs (cl : Client) (cb : Callback) : Client :=
  runUnsubs cb.unsubs cl

/-- The forEach loop of PicnicAPI.emit (lines 2542-2552): invoke each handler
of the set in insertion order inside try/catch — a throwing handler is logged
with console.error and the loop continues.  The handler set itself is not
mutated by callback bodies (they only touch this.subscriptions), so iterating
the registration list is the live Set iteration of the source. -/
def runHandlers (event : JStr) (payload : EmitPayload) : List Callback → Client → Client
  | [], cl => cl
  | cb :: rest, cl =>
    let cl1 := { cl with log := cl.log ++ [LogEntry.handlerCall event cb.id payload] }
    let cl2 := invokeActs cl1 cb
    let cl3 := if cb.throws then { cl2 with log := cl2.log ++ [LogEntry.consoleError event cb.id] }
               else cl2
    runHandlers event payload rest cl3

/-- PicnicAPI.emit (lines 2542-2552): look up the handler set of the event and
run it; no registered set means nothing happens. -/
def emit (cl : Client) (event : JStr) (payload : EmitPayload) : Client :=
  match mapFind cl.eventHandlers event with
  | some hs => runHandlers event payload hs cl
  | none => cl

/-- An inbound WebSocket message {type, collection, data, id}; absent fields
are none (the source destructures possibly-undefined properties). -/
structure WsMsg where
  type : JStr
  collection : Option JStr
  data : Option JStr
  id : Option JStr
deriving DecidableEq

/-- String.prototype.split(':'): 'a:b'.split(':') = ['a','b'],
''.split(':') = [''], 'a:'.split(':') = ['a','']. -/
def splitOnColon : JStr → List JStr
  | [] => [[]]
  | c :: rest =>
    if c = ':' then [] :: splitOnColon rest
    else
      match splitOnColon rest with
      | [] => [[c]]
      | p :: ps => (c :: p) :: ps

/-- The subscription filter of handleWebSocketMessage (lines 2452-2457):
const [subCollection, subType] = subscriptionKey.split(':');
collection === subCollection && (!subType || subType === type).
An absent collection (undefined) never satisfies the strict equality; a
missing or empty second segment is falsy. -/
def subMatches (key : JStr) (m : WsMsg) : Bool :=
  let parts := splitOnColon key
  let subCollection := parts.headD []
  let subType := parts[1]?
  (match m.collection with
   | some c => decide (c = subCollection)
   | none => false) &&
  (match subType with
   | none => true
   | some t => t.isEmpty || decide (t = m.type))

/-- The payload passed to subscription callbacks: {type, collection, data, id}. -/
def subPayload (m : WsMsg) : EmitPayload :=
  EmitPayload.obj (some m.type) m.collection m.data m.id

/-- The this.subscriptions.forEach loop of handleWebSocketMessage (lines
2452-2457) over the entry list present when the loop starts.  Callback bodies
can only delete subscriptions, never add them, so JavaScript's live Map
iteration is exactly: visit the starting entries in order, skipping any whose
key has been deleted meanwhile, and invoke the currently stored callback. -/
def dispatchSubs (m : WsMsg) : List (JStr × Callback) → Client → Client
  | [], cl => cl
  | (key, _) :: rest, cl =>
    match mapFind cl.subscriptions key with
    | none => dispatchSubs m rest cl
    | some cur =>
      if subMatches key m then
        let cl1 := { cl with log := cl.log ++ [LogEntry.subCall key cur.id (subPayload m)] }
        dispatchSubs m rest (invokeActs cl1 cur)
      else dispatchSubs m rest cl

/-- The event name ws:type of the generic pass. -/
def wsEvt (t : JStr) : JStr := "ws:".toList ++ t

/-- The event name ws:collection:type of the collection-specific pass. -/
def wsCollEvt (c t : JStr) : JStr := "ws:".toList ++ c ++ ':' :: t

/-- PicnicAPI.handleWebSocketMessage (lines 2440-2458): emit the generic
ws:type event with {collection, data, id}; when collection is truthy, emit
ws:collection:type with {data, id}; then run the subscription loop. -/
def handleWebSocketMessage (cl : Client) (m : WsMsg) : Client :=
  let cl1 := emit cl (wsEvt m.type) (EmitPayload.obj none m.collection m.data m.id)
  let cl2 :=
    match m.collection with
    | some c =>
      if c.isEmpty then cl1
      else emit cl1 (wsCollEvt c m.type) (EmitPayload.obj none none m.data m.id)
    | none => cl1
  dispatchSubs m cl2.subscriptions cl2

/-- The ws.onopen handler installed by PicnicAPI.connectWebSocket (lines
2405-2409): the socket is now open, the reconnect-attempt counter is reset to
zero, and the ws:connected event is emitted.  No control frame is sent here. -/
def onOpen (cl : Client) : Client :=
  emit { cl with wsOpen := true, wsReconnectAttempts := 0 }
    "ws:connected".toList EmitPayload.undef

/-- PicnicAPI.scheduleReconnect (lines 2508-2516): when the attempt counter is
below the maximum, schedule a reconnect after wsReconnectDelay * 2 ^ attempts
(the returned delay; recorded in order), else do nothing.  The counter itself
is incremented by the timer callback when it fires. -/
def scheduleReconnect (cl : Client) : Client × Option Nat :=
  if cl.wsReconnectAttempts < maxWsReconnectAttempts then
    let d := wsReconnectDelay * 2 ^ cl.wsReconnectAttempts
    ({ cl with delays := cl.delays ++ [d] }, some d)
  else (cl, none)

/-- The ws.onclose handler (lines 2419-2423): emit ws:disconnected, then
schedule a reconnect. -/
def onClose (cl : Client) : Client × Option Nat :=
  scheduleReconnect (emit { cl with wsOpen := false } "ws:disconnected".toList EmitPayload.undef)

/-- A run in which every connection attempt fails: each close event emits
ws:disconnected and schedules a reconnect; when the timer fires the attempt
counter is incremented and the next attempt closes again, until
scheduleReconnect stops.  The recursion argument is the remaining number of
reconnects the schedule guard can still allow,
maxWsReconnectAttempts - wsReconnectAttempts. -/
def failRunAux : Nat → Client → Client
  | 0, cl => (onClose cl).1
  | b + 1, cl =>
    let cl1 := (onClose cl).1
    failRunAux b { cl1 with wsReconnectAttempts := cl1.wsReconnectAttempts + 1 }

/-- The always-failing run from a given client state. -/
def failRun (cl : Client) : Client :=
  failRunAux (maxWsReconnectAttempts - cl.wsReconnectAttempts) cl

/-- A client with no registrations and a closed socket. -/
def initClient : Client :=
  ⟨[], [], false, 0, [], [], []⟩

/-! Observation helpers over the instrumentation, used to state properties. -/

/-- The event an emit-pass log entry belongs to; none for subscription calls. -/
def entryEvent : LogEntry → Option JStr
  | LogEntry.handlerCall event _ _ => some event
  | LogEntry.consoleError event _ => some event
  | LogEntry.subCall _ _ _ => none

/-- Is this entry a subscription-callback call? -/
def isSubCallEntry : LogEntry → Bool
  | LogEntry.subCall _ _ _ => true
  | _ => false

/-- Is this entry a subscription-callback call for the given key? -/
def isSubCallFor (k : JStr) : LogEntry → Bool
  | LogEntry.subCall k' _ _ => decide (k' = k)
  | _ => false

/-- Is this frame a subscribe control frame? -/
def isSubscribeF : Frame → Bool
  | Frame.subscribeF _ _ => true
  | Frame.unsubscribeF _ _ => false

/-- The handler identities invoked for an event, in log order. -/
def invokedFor (event : JStr) (log : List LogEntry) : List Nat :=
  log.filterMap fun x =>
    match x with
    | LogEntry.handlerCall ev i _ => if ev = event then some i else none
    | _ => none

/-- The number of handler invocations for an event in a log. -/
def countHandlerCalls (event : JStr) (log : List LogEntry) : Nat :=
  (invokedFor event log).length

/-- The handler set registered for an event ([] when none is). -/
def handlersOf (cl : Client) (event : JStr) : List Callback :=
  (mapFind cl.eventHandlers event).getD []

/-! Sequences of subscribe/unsubscribe calls (claim C5). -/

/-- One call of the subscription surface. -/
inductive SubOp where
  | sub (collection : JStr) (cb : Callback) (eventType : Option JStr)
  | unsub (collection : JStr) (eventType : Option JStr)

/-- Apply a call sequence to a client, in order. -/
def applyOps : List SubOp → Client → Client
  | [], cl => cl
  | SubOp.sub c cb e :: rest, cl => applyOps rest (subscribe cl c cb e)
  | SubOp.unsub c e :: rest, cl => applyOps rest (unsubscribe cl c e)

/-- The net effect of a call sequence on one encoded string key, starting from
a given prior value: the last subscribe under this key wins, an unsubscribe
under this key clears it, and calls under other keys leave it alone. -/
def stringNetFrom (k : JStr) : List SubOp → Option Callback → Option Callback
  | [], acc => acc
  | SubOp.sub c cb e :: rest, acc =>
    stringNetFrom k rest (if encodeKey c e = k then some cb else acc)
  | SubOp.unsub c e :: rest, acc =>
    stringNetFrom k rest (if encodeKey c e = k then none else acc)

/-- The net effect of a call sequence on one encoded string key, from nothing. -/
def stringNetEffect (ops : List SubOp) (k : JStr) : Option Callback :=
  stringNetFrom k ops none

/-- The net effect as claim C5 words it, keyed by the (collection, optional
event type) PAIR: the last registration under a pair wins and unsubscribe
removes exactly that pair and no other.  This is the claim-side definition,
compared against the code's behaviour. -/
def specNetEffect (c : JStr) (e : Option JStr) : List SubOp → Option Callback → Option Callback
  | [], acc => acc
  | SubOp.sub c' cb e' :: rest, acc =>
    specNetEffect c e rest (if c' = c ∧ e' = e then some cb else acc)
  | SubOp.unsub c' e' :: rest, acc =>
    specNetEffect c e rest (if c' = c ∧ e' = e then none else acc)

/-! Concrete states used to settle the WebSocket claims. -/

/-- An observer registered for the reserved ws:disconnected event. -/
def clDiscObs : Client :=
  ⟨[], [("ws:disconnected".toList, [⟨99, [], false⟩])], false, 0, [], [], []⟩

/-- A client holding exactly one subscription, registered while the socket was
closed (so no frame has been sent yet). -/
def clOneSub : Client :=
  subscribe initClient "todos".toList ⟨7, [], false⟩ none

/-! ## TodoAPI.getTodoStats (claim C10)

Source: src/unnamed/part_000, lines 195-204.  getTodoStats fetches the todo
list through getTodos and reduces it; the reduction is total on any list, so
it is modelled as a function of the fetched list.  The completed field of a
todo is an arbitrary JavaScript value tested for truthiness by the filters. -/

/-- A JavaScript value as far as truthiness is concerned. -/
inductive JsVal where
  | vUndef
  | vNull
  | vBool (b : Bool)
  | vNum (n : Int)
  | vStr (s : JStr)
deriving DecidableEq

/-- JavaScript truthiness (NaN is not modelled; an integer is falsy exactly
when it is zero). -/
def jsTruthy : JsVal → Bool
  | JsVal.vUndef => false
  | JsVal.vNull => false
  | JsVal.vBool b => b
  | JsVal.vNum n => decide (n ≠ 0)
  | JsVal.vStr s => !s.isEmpty

/-- A todo document, as far as getTodoStats reads it. -/
structure Todo where
  completed : JsVal
deriving DecidableEq

/-- The statistics object returned by getTodoStats. -/
structure TodoStats where
  total : Nat
  completed : Nat
  pending : Nat
deriving DecidableEq

/-- TodoAPI.getTodoStats (part_000 lines 195-204): total is the list length,
completed counts the todos whose completed field is truthy, pending counts
those whose completed field is falsy. -/
def getTodoStats (todos : List Todo) : TodoStats :=
  ⟨todos.length,
   (todos.filter fun t => jsTruthy t.completed).length,
   (todos.filter fun t => !jsTruthy t.completed).length⟩

/-- handleAuthError never touches the fetch counter. -/
theorem handleAuthError_fetchCount (env : ReqEnv) (st : RState) :
    (handleAuthError env st).1.fetchCount = st.fetchCount := by
  unfold handleAuthError
  split
  · split <;> rfl
  · rfl

/-- handleAuthError invokes the refresher at most once. -/
theorem handleAuthError_refreshCount (env : ReqEnv) (st : RState) :
    (handleAuthError env st).1.refreshCount ≤ st.refreshCount + 1 := by
  unfold handleAuthError
  split
  · split <;> simp
  · simp

/-- Every makeRequest call performs at most budget + 1 fetches and at most
budget + 1 token-refresh invocations: nothing is retried indefinitely. -/
theorem makeRequestAux_counts (env : ReqEnv) :
    ∀ (budget : Nat) (st : RState),
      (makeRequestAux env budget st).1.fetchCount ≤ st.fetchCount + (budget + 1) ∧
      (makeRequestAux env budget st).1.refreshCount ≤ st.refreshCount + (budget + 1) := by
  intro budget
  induction budget with
  | zero =>
      intro st
      unfold makeRequestAux
      cases h : env.fetch st.fetchCount with
      | netErr e =>
          dsimp only
          omega
      | resp status statusText jsonMsg body =>
          dsimp only
          split_ifs with h401 hok
          · rcases hh : handleAuthError env { st with fetchCount := st.fetchCount + 1 } with ⟨st1, oe⟩
            have hf := handleAuthError_fetchCount env { st with fetchCount := st.fetchCount + 1 }
            have hr := handleAuthError_refreshCount env { st with fetchCount := st.fetchCount + 1 }
            rw [hh] at hf hr
            dsimp only at hf hr
            cases oe <;> dsimp only <;> omega
          · try dsimp only
            omega
          · try dsimp only
            omega
  | succ b ih =>
      intro st
      unfold makeRequestAux
      cases h : env.fetch st.fetchCount with
      | netErr e =>
          dsimp only
          split_ifs with hre
          · have h2 := ih ⟨st.auth, st.fetchCount + 1, st.refreshCount, st.delays ++ [retryDelay * (retryAttempts - (b + 1) + 1)]⟩
            dsimp only at h2 ⊢
            omega
          · try dsimp only
            omega
      | resp status statusText jsonMsg body =>
          dsimp only
          split_ifs with h401 hok hre
          · rcases hh : handleAuthError env { st with fetchCount := st.fetchCount + 1 } with ⟨st1, oe⟩
            have hf := handleAuthError_fetchCount env { st with fetchCount := st.fetchCount + 1 }
            have hr := handleAuthError_refreshCount env { st with fetchCount := st.fetchCount + 1 }
            rw [hh] at hf hr
            dsimp only at hf hr
            cases oe with
            | none =>
                have h2 := ih st1
                try dsimp only
                omega
            | some e =>
                try dsimp only
                split_ifs with hre2
                · have h2 := ih ⟨st1.auth, st1.fetchCount, st1.refreshCount, st1.delays ++ [retryDelay * (retryAttempts - (b + 1) + 1)]⟩
                  dsimp only at h2 ⊢
                  omega
                · try dsimp only
                  omega
          · try dsimp only
            omega
          · have h2 := ih ⟨st.auth, st.fetchCount + 1, st.refreshCount, st.delays ++ [retryDelay * (retryAttempts - (b + 1) + 1)]⟩
            dsimp only at h2 ⊢
            omega
          · try dsimp only
            omega

/-- Claim C1, counterexample.  The server answers 401 twice and then succeeds,
and every token refresh succeeds.  The claim demands exactly one refresh per
original call and that the second consecutive 401 be surfaced as AuthError
without a second refresh; the code instead refreshes a second time, replays a
second time, and returns the third response's body. -/
theorem makeRequest_single_refresh_counterexample :
    (runMakeRequest (env401 2) "tok".toList).1.refreshCount = 2 ∧
    (runMakeRequest (env401 2) "tok".toList).1.fetchCount = 3 ∧
    (runMakeRequest (env401 2) "tok".toList).2 = Except.ok "okbody".toList := by
  decide

/-- Claim C1, amended: on every 401 response the client invokes the
token-refresh procedure (when a refresher is configured) and replays the
whole request, up to retryAttempts = 3 replays per original call — at most
4 requests and at most 4 refresh invocations, never an unbounded number.
When every attempt is answered 401, the final 401 is surfaced as the generic
HTTP error built from the response (message "HTTP 401: Unauthorized"), not
as the authentication-failed error; the authentication-failed error
(AuthError) is surfaced, without any replay, exactly when the refresh itself
rejects. -/
theorem makeRequest_refresh_retry_amended :
    (∀ (env : ReqEnv) (auth : JStr),
        (runMakeRequest env auth).1.fetchCount ≤ retryAttempts + 1 ∧
        (runMakeRequest env auth).1.refreshCount ≤ retryAttempts + 1) ∧
    ((runMakeRequest envAll401 "tok".toList).1.fetchCount = 4 ∧
      (runMakeRequest envAll401 "tok".toList).1.refreshCount = 4 ∧
      (runMakeRequest envAll401 "tok".toList).2 =
        Except.error ⟨"Error".toList, "HTTP 401: Unauthorized".toList⟩) ∧
    ((runMakeRequest envRefreshFails "tok".toList).1.fetchCount = 1 ∧
      (runMakeRequest envRefreshFails "tok".toList).1.refreshCount = 1 ∧
      (runMakeRequest envRefreshFails "tok".toList).2 = Except.error authFailedError) := by
  refine ⟨fun env auth => ?_, by decide, by decide⟩
  have := makeRequestAux_counts env retryAttempts ⟨auth, 0, 0, []⟩
  simpa [runMakeRequest] using this

/-- Claim C3, counterexample.  Every fetch fails at the transport level with a
retryable TypeError; the claim says the client makes 3 attempts in total, but
the code makes the initial attempt plus retryAttempts = 3 retries — 4 fetches. -/
theorem makeRequest_three_attempts_counterexample :
    (runMakeRequest envAllNet "tok".toList).1.fetchCount = 4 := by
  decide

/-- Claim C3, amended: a transport-level failure whose error is named
TypeError or whose message contains "fetch" is retried up to retryAttempts =
3 times, so the call makes up to 4 attempts in total (not 3); the delay
before the n-th retry is retryDelay * n (1000, 2000, 3000 ms); exhausting
the retries rethrows the transport error itself (there is no separate
NetworkError value); and a non-retryable error is surfaced at once without
any retry. -/
theorem makeRequest_network_retry_amended :
    ((runMakeRequest envAllNet "tok".toList).1.fetchCount = 4 ∧
      (runMakeRequest envAllNet "tok".toList).1.delays = [1000, 2000, 3000] ∧
      (runMakeRequest envAllNet "tok".toList).2 =
        Except.error ⟨"TypeError".toList, "Failed to fetch".toList⟩) ∧
    ((runMakeRequest envNetOnce "tok".toList).1.fetchCount = 2 ∧
      (runMakeRequest envNetOnce "tok".toList).1.delays = [1000] ∧
      (runMakeRequest envNetOnce "tok".toList).2 = Except.ok "okbody".toList) ∧
    ((runMakeRequest envNetBoom "tok".toList).1.fetchCount = 1 ∧
      (runMakeRequest envNetBoom "tok".toList).1.delays = [] ∧
      (runMakeRequest envNetBoom "tok".toList).2 =
        Except.error ⟨"Error".toList, "boom".toList⟩) := by
  refine ⟨by decide, by decide, by decide⟩

/-! ## Map lemmas (specialised to the subscription map) -/

/-- Looking up the key just set. -/
theorem mapFind_mapSet (m : List (JStr × Callback)) (k k' : JStr) (v : Callback) :
    mapFind (mapSet m k v) k' = if k = k' then some v else mapFind m k' := by
  induction m with
  | nil => simp [mapSet, mapFind]
  | cons hd tl ih =>
      obtain ⟨k1, v1⟩ := hd
      by_cases h1 : k1 = k
      · subst h1
        by_cases h2 : k1 = k'
        · subst h2
          simp [mapSet, mapFind]
        · simp [mapSet, mapFind, h2]
      · by_cases h2 : k1 = k'
        · subst h2
          have hne : ¬k = k1 := fun hk => h1 hk.symm
          simp [mapSet, mapFind, h1, hne]
        · simp [mapSet, mapFind, h1, h2, ih]

/-- A key absent from a map stays absent after any delete. -/
theorem mapFind_mapDelete_none (m : List (JStr × Callback)) (k k' : JStr)
    (h : mapFind m k = none) : mapFind (mapDelete m k') k = none := by
  induction m with
  | nil => simp [mapDelete, mapFind]
  | cons hd tl ih =>
      obtain ⟨k1, v1⟩ := hd
      by_cases h1 : k1 = k
      · subst h1
        simp [mapFind] at h
      · simp only [mapFind, if_neg h1] at h
        by_cases h2 : k1 = k'
        · simp [mapDelete, h2, h]
        · simp [mapDelete, h2, mapFind, h1, ih h]

/-- mapDelete only removes entries. -/
theorem mapDelete_sublist (m : List (JStr × Callback)) (k : JStr) :
    (mapDelete m k).Sublist m := by
  induction m with
  | nil => simp [mapDelete]
  | cons hd tl ih =>
      obtain ⟨k1, v1⟩ := hd
      by_cases h1 : k1 = k
      · simp only [mapDelete, if_pos h1]
        exact List.sublist_cons_self (k1, v1) tl
      · simp only [mapDelete, if_neg h1]
        exact List.Sublist.cons₂ (k1, v1) ih

/-- A key is in mapSet's key list iff it was there or is the key set. -/
theorem mem_keys_mapSet (m : List (JStr × Callback)) (k k' : JStr) (v : Callback) :
    k' ∈ (mapSet m k v).map Prod.fst ↔ k' ∈ m.map Prod.fst ∨ k' = k := by
  induction m with
  | nil => simp [mapSet]
  | cons hd tl ih =>
      obtain ⟨k1, v1⟩ := hd
      simp only [mapSet]
      split
      · next h1 =>
          subst h1
          simp only [List.map_cons, List.mem_cons]
          tauto
      · next h1 =>
          simp only [List.map_cons, List.mem_cons, ih]
          tauto

/-- mapSet preserves key distinctness. -/
theorem nodup_mapSet (m : List (JStr × Callback)) (k : JStr) (v : Callback)
    (h : (m.map Prod.fst).Nodup) : ((mapSet m k v).map Prod.fst).Nodup := by
  induction m with
  | nil => simp [mapSet]
  | cons hd tl ih =>
      obtain ⟨k1, v1⟩ := hd
      simp only [List.map_cons, List.nodup_cons] at h
      simp only [mapSet]
      split
      · next h1 =>
          subst h1
          simp only [List.map_cons, List.nodup_cons]
          exact h
      · next h1 =>
        simp only [List.map_cons, List.nodup_cons]
        refine ⟨?_, ih h.2⟩
        rw [mem_keys_mapSet]
        rintro (hm | hm)
        · exact h.1 hm
        · exact h1 hm

/-- mapDelete preserves key distinctness. -/
theorem nodup_mapDelete (m : List (JStr × Callback)) (k : JStr)
    (h : (m.map Prod.fst).Nodup) : ((mapDelete m k).map Prod.fst).Nodup :=
  (((mapDelete_sublist m k).map Prod.fst).nodup h)

/-- A key outside a map's key list is not found. -/
theorem mapFind_eq_none_of_not_mem (m : List (JStr × Callback)) (k : JStr)
    (h : k ∉ m.map Prod.fst) : mapFind m k = none := by
  induction m with
  | nil => rfl
  | cons hd tl ih =>
      obtain ⟨k1, v1⟩ := hd
      simp only [List.map_cons, List.mem_cons] at h
      push_neg at h
      have h1 : ¬k1 = k := fun hk => h.1 hk.symm
      simp [mapFind, h1, ih h.2]

/-- Looking up after a delete, on a map with distinct keys. -/
theorem mapFind_mapDelete (m : List (JStr × Callback)) (k k' : JStr)
    (h : (m.map Prod.fst).Nodup) :
    mapFind (mapDelete m k) k' = if k = k' then none else mapFind m k' := by
  induction m with
  | nil => simp [mapDelete, mapFind]
  | cons hd tl ih =>
      obtain ⟨k1, v1⟩ := hd
      simp only [List.map_cons, List.nodup_cons] at h
      by_cases h1 : k1 = k
      · subst h1
        simp only [mapDelete, if_pos rfl]
        by_cases h2 : k1 = k'
        · subst h2
          simp [mapFind_eq_none_of_not_mem tl k1 h.1]
        · have hne : ¬k1 = k' := h2
          simp [mapFind, hne]
      · simp only [mapDelete, if_neg h1]
        by_cases h2 : k1 = k'
        · subst h2
          have hne : ¬k = k1 := fun hk => h1 hk.symm
          simp [mapFind, hne]
        · simp [mapFind, h2, ih h.2]

/-! ## Preservation lemmas for subscribe, unsubscribe, emit and dispatch -/

/-- What one subscribe call does to each component of the state. -/
theorem subscribe_fields (cl : Client) (c : JStr) (cb : Callback) (e : Option JStr) :
    (subscribe cl c cb e).subscriptions = mapSet cl.subscriptions (encodeKey c e) cb ∧
    (subscribe cl c cb e).eventHandlers = cl.eventHandlers ∧
    (subscribe cl c cb e).wsOpen = cl.wsOpen ∧
    (subscribe cl c cb e).wsReconnectAttempts = cl.wsReconnectAttempts ∧
    (subscribe cl c cb e).log = cl.log ∧
    (subscribe cl c cb e).sent =
      cl.sent ++ (if cl.wsOpen then [Frame.subscribeF c e] else []) := by
  unfold subscribe
  split <;> simp_all

/-- What one unsubscribe call does to each component of the state. -/
theorem unsubscribe_fields (cl : Client) (c : JStr) (e : Option JStr) :
    (unsubscribe cl c e).subscriptions = mapDelete cl.subscriptions (encodeKey c e) ∧
    (unsubscribe cl c e).eventHandlers = cl.eventHandlers ∧
    (unsubscribe cl c e).wsOpen = cl.wsOpen ∧
    (unsubscribe cl c e).wsReconnectAttempts = cl.wsReconnectAttempts ∧
    (unsubscribe cl c e).log = cl.log ∧
    (unsubscribe cl c e).sent =
      cl.sent ++ (if cl.wsOpen then [Frame.unsubscribeF c e] else []) := by
  unfold unsubscribe
  split <;> simp_all

/-- A callback body preserves the log, the handler map and the reconnect
counter, only appends non-subscribe frames, and keeps absent keys absent. -/
theorem runUnsubs_fields (k : JStr) :
    ∀ (l : List (JStr × Option JStr)) (cl : Client),
      (runUnsubs l cl).log = cl.log ∧
      (runUnsubs l cl).eventHandlers = cl.eventHandlers ∧
      (runUnsubs l cl).wsOpen = cl.wsOpen ∧
      (runUnsubs l cl).wsReconnectAttempts = cl.wsReconnectAttempts ∧
      (∃ fr, (runUnsubs l cl).sent = cl.sent ++ fr ∧ ∀ f ∈ fr, isSubscribeF f = false) ∧
      (mapFind cl.subscriptions k = none →
        mapFind (runUnsubs l cl).subscriptions k = none) := by
  intro l
  induction l with
  | nil =>
      intro cl
      exact ⟨rfl, rfl, rfl, rfl, ⟨[], by simp [runUnsubs], by simp⟩, fun h => h⟩
  | cons hd rest ih =>
      intro cl
      obtain ⟨c, e⟩ := hd
      obtain ⟨hsub, hev, hws, hatt, hlog, hsent⟩ := unsubscribe_fields cl c e
      obtain ⟨ihlog, ihev, ihws, ihatt, ⟨fr, ihsent, ihfr⟩, ihabs⟩ :=
        ih (unsubscribe cl c e)
      refine ⟨by simp [runUnsubs, ihlog, hlog], by simp [runUnsubs, ihev, hev],
        by simp [runUnsubs, ihws, hws], by simp [runUnsubs, ihatt, hatt], ?_, ?_⟩
      · refine ⟨(if cl.wsOpen then [Frame.unsubscribeF c e] else []) ++ fr, ?_, ?_⟩
        · simp [runUnsubs, ihsent, hsent]
        · intro f hf
          rcases List.mem_append.mp hf with hf | hf
          · split at hf <;> simp_all [isSubscribeF]
          · exact ihfr f hf
      · intro habs
        simp only [runUnsubs]
        exact ihabs (by rw [hsub]; exact mapFind_mapDelete_none _ _ _ habs)

/-- One emit pass appends only entries of its own event to the log, preserves
the handler map and the reconnect counter, appends no subscribe frame, keeps
absent subscription keys absent, and invokes exactly the handlers of the list
in order (a throwing handler is caught and the loop continues). -/
theorem runHandlers_fields (event : JStr) (payload : EmitPayload) (k : JStr) :
    ∀ (hs : List Callback) (cl : Client),
      (∃ tail, (runHandlers event payload hs cl).log = cl.log ++ tail ∧
        ∀ x ∈ tail, entryEvent x = some event) ∧
      invokedFor event (runHandlers event payload hs cl).log =
        invokedFor event cl.log ++ hs.map Callback.id ∧
      (runHandlers event payload hs cl).eventHandlers = cl.eventHandlers ∧
      (runHandlers event payload hs cl).wsReconnectAttempts = cl.wsReconnectAttempts ∧
      (∃ fr, (runHandlers event payload hs cl).sent = cl.sent ++ fr ∧
        ∀ f ∈ fr, isSubscribeF f = false) ∧
      (mapFind cl.subscriptions k = none →
        mapFind (runHandlers event payload hs cl).subscriptions k = none) := by
  intro hs
  induction hs with
  | nil =>
      intro cl
      exact ⟨⟨[], by simp [runHandlers], by simp⟩, by simp [runHandlers], rfl, rfl,
        ⟨[], by simp [runHandlers], by simp⟩, fun h => h⟩
  | cons cb rest ih =>
      intro cl
      set cl1 : Client := { cl with log := cl.log ++ [LogEntry.handlerCall event cb.id payload] } with hcl1
      obtain ⟨ulog, uev, uws, uatt, ⟨ufr, usent, ufrn⟩, uabs⟩ :=
        runUnsubs_fields k cb.unsubs cl1
      set cl2 : Client := invokeActs cl1 cb with hcl2
      set cl3 : Client := if cb.throws then
          { cl2 with log := cl2.log ++ [LogEntry.consoleError event cb.id] } else cl2 with hcl3
      have hrun : runHandlers event payload (cb :: rest) cl = runHandlers event payload rest cl3 := rfl
      have h3log : cl3.log = cl.log ++ ([LogEntry.handlerCall event cb.id payload] ++
          (if cb.throws then [LogEntry.consoleError event cb.id] else [])) := by
        rw [hcl3]
        split <;> simp [hcl2, invokeActs, ulog, hcl1]
      have h3ev : cl3.eventHandlers = cl.eventHandlers := by
        rw [hcl3]
        split <;> simp [hcl2, invokeActs, uev, hcl1]
      have h3att : cl3.wsReconnectAttempts = cl.wsReconnectAttempts := by
        rw [hcl3]
        split <;> simp [hcl2, invokeActs, uatt, hcl1]
      have h3sent : cl3.sent = cl.sent ++ ufr := by
        rw [hcl3]
        split <;> simp [hcl2, invokeActs, usent, hcl1]
      have h3abs : mapFind cl.subscriptions k = none →
          mapFind cl3.subscriptions k = none := by
        intro habs
        have : mapFind cl3.subscriptions k = mapFind cl2.subscriptions k := by
          rw [hcl3]
          split <;> rfl
        rw [this, hcl2, invokeActs]
        exact uabs (by simp [hcl1, habs])
      obtain ⟨⟨tail, ihlog, ihtail⟩, ihinv, ihev, ihatt, ⟨fr, ihsent, ihfrn⟩, ihabs⟩ :=
        ih cl3
      refine ⟨?_, ?_, ?_, ?_, ?_, ?_⟩
      · refine ⟨([LogEntry.handlerCall event cb.id payload] ++
          (if cb.throws then [LogEntry.consoleError event cb.id] else [])) ++ tail, ?_, ?_⟩
        · rw [hrun, ihlog, h3log, List.append_assoc]
        · intro x hx
          rcases List.mem_append.mp hx with hx | hx
          · rcases List.mem_append.mp hx with hx | hx
            · simp only [List.mem_singleton] at hx
              subst hx
              rfl
            · split at hx <;> simp_all [entryEvent]
          · exact ihtail x hx
      · rw [hrun, ihinv, h3log]
        by_cases hth : cb.throws <;>
          simp [hth, invokedFor, List.filterMap_append]
      · rw [hrun, ihev, h3ev]
      · rw [hrun, ihatt, h3att]
      · refine ⟨ufr ++ fr, ?_, ?_⟩
        · rw [hrun, ihsent, h3sent, List.append_assoc]
        · intro f hf
          rcases List.mem_append.mp hf with hf | hf
          · exact ufrn f hf
          · exact ihfrn f hf
      · intro habs
        rw [hrun]
        exact ihabs (h3abs habs)

/-- An entry produced by an emit pass is never a subscription call. -/
theorem isSubCallFor_false_of_event (x : LogEntry) (ev k : JStr)
    (h : entryEvent x = some ev) : isSubCallFor k x = false := by
  cases x <;> simp_all [entryEvent, isSubCallFor]

/-- All the facts about one emit call: it appends only entries of its own
event, invokes exactly the registered handlers in order, preserves the
handler map and the reconnect counter, appends no subscribe frame, and keeps
absent subscription keys absent. -/
theorem emit_fields (cl : Client) (event : JStr) (payload : EmitPayload) (k : JStr) :
    (∃ tail, (emit cl event payload).log = cl.log ++ tail ∧
      ∀ x ∈ tail, entryEvent x = some event) ∧
    invokedFor event (emit cl event payload).log =
      invokedFor event cl.log ++ (handlersOf cl event).map Callback.id ∧
    (emit cl event payload).eventHandlers = cl.eventHandlers ∧
    (emit cl event payload).wsReconnectAttempts = cl.wsReconnectAttempts ∧
    (∃ fr, (emit cl event payload).sent = cl.sent ++ fr ∧ ∀ f ∈ fr, isSubscribeF f = false) ∧
    (mapFind cl.subscriptions k = none →
      mapFind (emit cl event payload).subscriptions k = none) := by
  unfold emit handlersOf
  cases h : mapFind cl.eventHandlers event with
  | none =>
      exact ⟨⟨[], by simp, by simp⟩, by simp, rfl, rfl, ⟨[], by simp, by simp⟩, fun hh => hh⟩
  | some hs =>
      simpa using runHandlers_fields event payload k hs cl

/-- All the facts about the subscription loop: it appends only subscription
entries; and when a key is absent from the map at loop entry, no entry for
that key is appended and the key is still absent afterwards. -/
theorem dispatchSubs_fields (m : WsMsg) (k : JStr) :
    ∀ (entries : List (JStr × Callback)) (cl : Client),
      (∃ tail, (dispatchSubs m entries cl).log = cl.log ++ tail ∧
        ∀ x ∈ tail, isSubCallEntry x = true) ∧
      (mapFind cl.subscriptions k = none →
        (∃ tail, (dispatchSubs m entries cl).log = cl.log ++ tail ∧
          ∀ x ∈ tail, isSubCallFor k x = false) ∧
        mapFind (dispatchSubs m entries cl).subscriptions k = none) := by
  intro entries
  induction entries with
  | nil =>
      intro cl
      exact ⟨⟨[], by simp [dispatchSubs], by simp⟩,
        fun h => ⟨⟨[], by simp [dispatchSubs], by simp⟩, h⟩⟩
  | cons hd rest ih =>
      intro cl
      obtain ⟨key, snap⟩ := hd
      cases hf : mapFind cl.subscriptions key with
      | none =>
          have hred : dispatchSubs m ((key, snap) :: rest) cl = dispatchSubs m rest cl := by
            simp [dispatchSubs, hf]
          rw [hred]
          exact ih cl
      | some cur =>
          by_cases hm : subMatches key m = true
          · set cl1 : Client :=
              { cl with log := cl.log ++ [LogEntry.subCall key cur.id (subPayload m)] } with hcl1
            have hred : dispatchSubs m ((key, snap) :: rest) cl =
                dispatchSubs m rest (invokeActs cl1 cur) := by
              simp [dispatchSubs, hf, hm]
            obtain ⟨ulog, uev, uws, uatt, usent, uabs⟩ := runUnsubs_fields k cur.unsubs cl1
            obtain ⟨⟨tail, ihlog, ihtail⟩, ihabs⟩ := ih (invokeActs cl1 cur)
            have hlog2 : (dispatchSubs m rest (invokeActs cl1 cur)).log =
                cl.log ++ ([LogEntry.subCall key cur.id (subPayload m)] ++ tail) := by
              rw [ihlog]
              show (runUnsubs cur.unsubs cl1).log ++ tail = _
              rw [ulog, hcl1]
              simp
            constructor
            · refine ⟨[LogEntry.subCall key cur.id (subPayload m)] ++ tail, by rw [hred]; exact hlog2, ?_⟩
              intro x hx
              rcases List.mem_append.mp hx with hx | hx
              · simp only [List.mem_singleton] at hx
                subst hx
                rfl
              · exact ihtail x hx
            · intro habs
              have hkne : ¬key = k := fun hk => by rw [hk, habs] at hf; cases hf
              have habs1 : mapFind (invokeActs cl1 cur).subscriptions k = none := by
                unfold invokeActs
                exact uabs (by rw [hcl1]; exact habs)
              obtain ⟨⟨tail2, ihlog2, ihtail2⟩, ihabs2⟩ := ihabs habs1
              refine ⟨⟨[LogEntry.subCall key cur.id (subPayload m)] ++ tail2, ?_, ?_⟩, ?_⟩
              · rw [hred, ihlog2]
                show (runUnsubs cur.unsubs cl1).log ++ tail2 = _
                rw [ulog, hcl1]
                simp
              · intro x hx
                rcases List.mem_append.mp hx with hx | hx
                · simp only [List.mem_singleton] at hx
                  subst hx
                  simp [isSubCallFor, hkne]
                · exact ihtail2 x hx
              · rw [hred]
                exact ihabs2
          · have hred : dispatchSubs m ((key, snap) :: rest) cl = dispatchSubs m rest cl := by
              simp [dispatchSubs, hf, hm]
            rw [hred]
            exact ih cl

/-- When a key is absent from the subscription map, a whole inbound-message
dispatch adds no subscription-call entry for it and leaves it absent:
handler bodies can only delete subscriptions, never resurrect one. -/
theorem hwm_absent (cl : Client) (m : WsMsg) (k : JStr)
    (h : mapFind cl.subscriptions k = none) :
    (∃ tail, (handleWebSocketMessage cl m).log = cl.log ++ tail ∧
      ∀ x ∈ tail, isSubCallFor k x = false) ∧
    mapFind (handleWebSocketMessage cl m).subscriptions k = none := by
  unfold handleWebSocketMessage
  obtain ⟨⟨t1, h1log, h1tail⟩, _, _, _, _, h1abs⟩ :=
    emit_fields cl (wsEvt m.type) (EmitPayload.obj none m.collection m.data m.id) k
  set cl1 := emit cl (wsEvt m.type) (EmitPayload.obj none m.collection m.data m.id) with hcl1
  have habs1 : mapFind cl1.subscriptions k = none := h1abs h
  have step2 : ∀ (cl2 : Client) (t12 : List LogEntry),
      cl2.log = cl.log ++ t12 → (∀ x ∈ t12, isSubCallFor k x = false) →
      mapFind cl2.subscriptions k = none →
      (∃ tail, (dispatchSubs m cl2.subscriptions cl2).log = cl.log ++ tail ∧
        ∀ x ∈ tail, isSubCallFor k x = false) ∧
      mapFind (dispatchSubs m cl2.subscriptions cl2).subscriptions k = none := by
    intro cl2 t12 hlog htail habs
    obtain ⟨_, hdisp⟩ := dispatchSubs_fields m k cl2.subscriptions cl2
    obtain ⟨⟨t3, h3log, h3tail⟩, h3abs⟩ := hdisp habs
    refine ⟨⟨t12 ++ t3, ?_, ?_⟩, h3abs⟩
    · rw [h3log, hlog, List.append_assoc]
    · intro x hx
      rcases List.mem_append.mp hx with hx | hx
      · exact htail x hx
      · exact h3tail x hx
  have h1tail' : ∀ x ∈ t1, isSubCallFor k x = false :=
    fun x hx => isSubCallFor_false_of_event x _ k (h1tail x hx)
  cases hc : m.collection with
  | none =>
      simpa [hc] using step2 cl1 t1 h1log h1tail' habs1
  | some c =>
      by_cases hce : c.isEmpty
      · simpa [hc, hce] using step2 cl1 t1 h1log h1tail' habs1
      · obtain ⟨⟨t2, h2log, h2tail⟩, _, _, _, _, h2abs⟩ :=
          emit_fields cl1 (wsCollEvt c m.type) (EmitPayload.obj none none m.data m.id) k
        have h2tail' : ∀ x ∈ t1 ++ t2, isSubCallFor k x = false := by
          intro x hx
          rcases List.mem_append.mp hx with hx | hx
          · exact h1tail' x hx
          · exact isSubCallFor_false_of_event x _ k (h2tail x hx)
        have hlog12 : (emit cl1 (wsCollEvt c m.type) (EmitPayload.obj none none m.data m.id)).log =
            cl.log ++ (t1 ++ t2) := by
          rw [h2log, h1log, List.append_assoc]
        simpa [hc, hce] using
          step2 (emit cl1 (wsCollEvt c m.type) (EmitPayload.obj none none m.data m.id))
            (t1 ++ t2) hlog12 h2tail' (h2abs habs1)

/-! ## Claim C2: the open transition -/

/-- Claim C2, counterexample.  A client holding one registered subscription
(added while the socket was closed, so nothing has been sent yet) goes
through the Connecting -> Connected transition: the claim requires exactly
one re-sent subscribe control frame for the registered key, but the onopen
handler sends no frame at all. -/
theorem onOpen_resubscribe_counterexample :
    clOneSub.subscriptions.length = 1 ∧ (onOpen clOneSub).sent = [] := by
  decide

/-- Claim C2, amended: on the socket-open transition the client resets the
reconnect-attempt counter to zero and emits the ws:connected event to its
registered handlers, but re-sends no subscribe control frame whatsoever —
subscriptions survive only as entries of the local map, and a subscribe frame
is sent only by a subscribe() call made while the socket is open.  (Handlers
of ws:connected may themselves call unsubscribe, which can send unsubscribe
frames; no subscribe frame is ever sent here.) -/
theorem onOpen_amended :
    ∀ (cl : Client),
      (onOpen cl).wsReconnectAttempts = 0 ∧
      (∃ fr, (onOpen cl).sent = cl.sent ++ fr ∧ ∀ f ∈ fr, isSubscribeF f = false) ∧
      invokedFor "ws:connected".toList (onOpen cl).log =
        invokedFor "ws:connected".toList cl.log ++
          (handlersOf cl "ws:connected".toList).map Callback.id := by
  intro cl
  obtain ⟨⟨t1, h1log, h1tail⟩, hinv, hev, hatt, ⟨fr, hsent, hfr⟩, habs⟩ :=
    emit_fields { cl with wsOpen := true, wsReconnectAttempts := 0 }
      "ws:connected".toList EmitPayload.undef []
  exact ⟨hatt, ⟨fr, hsent, hfr⟩, hinv⟩

/-! ## Claim C4: reconnect backoff and the ws:disconnected notification -/

/-- Claim C4, counterexample.  With one observer registered for the reserved
ws:disconnected event, a run in which every connection attempt fails notifies
the observer eleven times — once per close event, not exactly once on
exceeding the reconnect cap; no dedicated one-shot ConnectionLost
notification exists. -/
theorem reconnect_connection_lost_counterexample :
    countHandlerCalls "ws:disconnected".toList (failRun clDiscObs).log = 11 := by
  decide

/-- Claim C4, amended: the reconnect delay of attempt n is exactly
wsReconnectDelay * 2 ^ n, a non-decreasing sequence, and no reconnect is
scheduled once the attempt counter has reached maxWsReconnectAttempts = 10;
but the ws:disconnected event is emitted on every socket close — eleven
times over a run that exhausts the cap (the initial close plus ten failed
reconnects) — rather than exactly once on exceeding the cap. -/
theorem reconnect_backoff_amended :
    (failRun clDiscObs).delays =
      (List.range maxWsReconnectAttempts).map (fun n => wsReconnectDelay * 2 ^ n) ∧
    List.Pairwise (· ≤ ·) ((failRun clDiscObs).delays) ∧
    countHandlerCalls "ws:disconnected".toList (failRun clDiscObs).log = 11 ∧
    (∀ (n : Nat) (cl : Client),
      scheduleReconnect { cl with wsReconnectAttempts := maxWsReconnectAttempts + n } =
        ({ cl with wsReconnectAttempts := maxWsReconnectAttempts + n }, none)) := by
  have h1 : (failRun clDiscObs).delays =
      (List.range maxWsReconnectAttempts).map (fun n => wsReconnectDelay * 2 ^ n) := by
    decide
  refine ⟨h1, by rw [h1]; decide, by decide, ?_⟩
  intro n cl
  have hlt : ¬({ cl with wsReconnectAttempts := maxWsReconnectAttempts + n }.wsReconnectAttempts
      < maxWsReconnectAttempts) := by
    dsimp only
    omega
  simp [scheduleReconnect, hlt]

/-! ## Claim C5: net effect of subscribe/unsubscribe sequences -/

/-- The subscription map after a call sequence, looked up at one encoded
string key, is the net effect of the sequence on that key (requires the map's
keys to be distinct, which holds for every state reachable from a fresh
client). -/
theorem applyOps_netEffect (k : JStr) :
    ∀ (ops : List SubOp) (cl : Client), (cl.subscriptions.map Prod.fst).Nodup →
      mapFind (applyOps ops cl).subscriptions k =
        stringNetFrom k ops (mapFind cl.subscriptions k) := by
  intro ops
  induction ops with
  | nil => intro cl _; rfl
  | cons op rest ih =>
      intro cl h
      cases op with
      | sub c cb e =>
          have hs := (subscribe_fields cl c cb e).1
          have hnd : ((subscribe cl c cb e).subscriptions.map Prod.fst).Nodup := by
            rw [hs]
            exact nodup_mapSet _ _ _ h
          show mapFind (applyOps rest (subscribe cl c cb e)).subscriptions k = _
          rw [ih (subscribe cl c cb e) hnd, hs, mapFind_mapSet]
          rfl
      | unsub c e =>
          have hs := (unsubscribe_fields cl c e).1
          have hnd : ((unsubscribe cl c e).subscriptions.map Prod.fst).Nodup := by
            rw [hs]
            exact nodup_mapDelete _ _ h
          show mapFind (applyOps rest (unsubscribe cl c e)).subscriptions k = _
          rw [ih (unsubscribe cl c e) hnd, hs, mapFind_mapDelete _ _ _ h]
          rfl

/-- Claim C5, counterexample.  The code keys subscriptions by the encoded
string collection:eventType, not by the (collection, eventType) pair:
subscribing to collection "a" with event type "b" and then unsubscribing
collection "a:b" (no event type) removes that registration — the two distinct
pairs collide on the encoded key "a:b".  The claim-side net effect keeps the
callback of pair ("a", some "b") alive, but the client's map is empty. -/
theorem subscription_pair_key_counterexample :
    (applyOps [SubOp.sub "a".toList ⟨1, [], false⟩ (some "b".toList),
        SubOp.unsub "a:b".toList none] initClient).subscriptions = [] ∧
    specNetEffect "a".toList (some "b".toList)
        [SubOp.sub "a".toList ⟨1, [], false⟩ (some "b".toList),
         SubOp.unsub "a:b".toList none] none = some ⟨1, [], false⟩ := by
  decide

/-- Claim C5, amended: for every finite sequence of subscribe and unsubscribe
calls, the resulting map of active callbacks is exactly the net effect of the
sequence applied in order — with keys identified by their ENCODED string
(the collection name, or collection:eventType when the event type is truthy):
the last registration under an encoded key wins, at most one callback exists
per encoded key, and unsubscribe removes exactly that encoded key.  Distinct
(collection, eventType) pairs whose encodings coincide share one slot. -/
theorem subscription_net_effect_amended :
    ∀ (ops : List SubOp) (k : JStr),
      mapFind (applyOps ops initClient).subscriptions k = stringNetEffect ops k := by
  intro ops k
  have h := applyOps_netEffect k ops initClient (by simp [initClient])
  simpa [initClient, mapFind, stringNetEffect] using h

/-! ## Claim C6: the three dispatch passes run in a fixed order -/

/-- Claim C6: for every inbound WebSocket message, the invocation log of the
dispatch decomposes as the prior log, then the generic ws:type handler pass,
then the ws:collection:type handler pass, then the subscription-callback
pass — generic instrumentation always observes an event before the
collection-specific handlers, which observe it before the domain callbacks. -/
theorem dispatch_three_pass_order (cl : Client) (m : WsMsg) :
    ∃ t1 t2 t3,
      (handleWebSocketMessage cl m).log = cl.log ++ t1 ++ t2 ++ t3 ∧
      (∀ x ∈ t1, entryEvent x = some (wsEvt m.type)) ∧
      (∀ x ∈ t2, ∃ c, m.collection = some c ∧ entryEvent x = some (wsCollEvt c m.type)) ∧
      (∀ x ∈ t3, isSubCallEntry x = true) := by
  unfold handleWebSocketMessage
  obtain ⟨⟨t1, h1log, h1tail⟩, _, _, _, _, _⟩ :=
    emit_fields cl (wsEvt m.type) (EmitPayload.obj none m.collection m.data m.id) []
  set cl1 := emit cl (wsEvt m.type) (EmitPayload.obj none m.collection m.data m.id) with hcl1
  cases hc : m.collection with
  | none =>
      obtain ⟨⟨t3, h3log, h3tail⟩, _⟩ := dispatchSubs_fields m [] cl1.subscriptions cl1
      refine ⟨t1, [], t3, ?_, h1tail, by simp, h3tail⟩
      show (dispatchSubs m cl1.subscriptions cl1).log = _
      rw [h3log, h1log]
      simp
  | some c =>
      by_cases hce : c.isEmpty = true
      · obtain ⟨⟨t3, h3log, h3tail⟩, _⟩ := dispatchSubs_fields m [] cl1.subscriptions cl1
        refine ⟨t1, [], t3, ?_, h1tail, by simp, h3tail⟩
        simp only [hce, if_true]
        show (dispatchSubs m cl1.subscriptions cl1).log = _
        rw [h3log, h1log]
        simp
      · obtain ⟨⟨t2, h2log, h2tail⟩, _, _, _, _, _⟩ :=
          emit_fields cl1 (wsCollEvt c m.type) (EmitPayload.obj none none m.data m.id) []
        set cl2 := emit cl1 (wsCollEvt c m.type) (EmitPayload.obj none none m.data m.id) with hcl2
        obtain ⟨⟨t3, h3log, h3tail⟩, _⟩ := dispatchSubs_fields m [] cl2.subscriptions cl2
        have hce2 : c.isEmpty = false := by
          cases hh : c.isEmpty
          · rfl
          · exact absurd hh hce
        refine ⟨t1, t2, t3, ?_, h1tail, ?_, h3tail⟩
        · simp only [hce2, Bool.false_eq_true, if_false]
          show (dispatchSubs m cl2.subscriptions cl2).log = _
          rw [h3log, h2log, h1log]
          try simp
        · intro x hx
          exact ⟨c, rfl, h2tail x hx⟩

/-! ## Claim C7: subscription matching by collection and event type -/

/-- Splitting a colon-free string is the singleton of the string. -/
theorem splitOnColon_no_colon : ∀ (c : JStr), ':' ∉ c → splitOnColon c = [c] := by
  intro c
  induction c with
  | nil => intro _; rfl
  | cons a rest ih =>
      intro h
      simp only [List.mem_cons] at h
      push_neg at h
      have h1 : ¬a = ':' := fun hk => h.1 hk.symm
      simp [splitOnColon, h1, ih h.2]

/-- Splitting collection:suffix at the first colon, for a colon-free
collection. -/
theorem splitOnColon_append : ∀ (c e : JStr), ':' ∉ c →
    splitOnColon (c ++ ':' :: e) = c :: splitOnColon e := by
  intro c e
  induction c with
  | nil => intro _; simp [splitOnColon]
  | cons a rest ih =>
      intro h
      simp only [List.mem_cons] at h
      push_neg at h
      have h1 : ¬a = ':' := fun hk => h.1 hk.symm
      have hr := ih h.2
      simp [splitOnColon, h1, hr]

/-- Claim C7, counterexample.  A subscription registered for the collection
"a:b" (no event type) is keyed "a:b"; dispatching the message
{type: "b", collection: "a"} parses the key as collection "a" plus event
type "b" and invokes the callback — although the message's collection "a" is
not the subscription's collection "a:b".  The callback may fire for a message
of a different collection, refuting the general matching rule as claimed. -/
theorem subscription_match_collection_counterexample :
    (handleWebSocketMessage (subscribe initClient "a:b".toList ⟨42, [], false⟩ none)
        ⟨"b".toList, some "a".toList, none, none⟩).log =
      [LogEntry.subCall "a:b".toList 42
        (EmitPayload.obj (some "b".toList) (some "a".toList) none none)] ∧
    ("a".toList : JStr) ≠ "a:b".toList := by
  decide

/-- Claim C7, amended: for collection names and truthy event types that do not
contain the key delimiter ':', the matching rule is as claimed — a
subscription with no (or an empty) event type fires exactly for messages of
its collection, and one with a non-empty event type fires exactly for
messages of its collection carrying that type; the concrete scenario of the
claim (message {type: document_deleted, collection: todos, id: abc}
invoking the todos subscriber with the exact payload and no other
collection's subscriber) holds.  For keys containing ':' the rule instead
works on the encoded key's first and second segment. -/
theorem subscription_match_amended :
    ∀ (c ev : JStr) (m : WsMsg), ':' ∉ c → ':' ∉ ev →
      ((subMatches (encodeKey c none) m = true ↔ m.collection = some c) ∧
       (ev.isEmpty = false →
         (subMatches (encodeKey c (some ev)) m = true ↔
           (m.collection = some c ∧ ev = m.type)))) ∧
      (handleWebSocketMessage
          (subscribe (subscribe initClient "picnics".toList ⟨8, [], false⟩ none)
            "todos".toList ⟨7, [], false⟩ none)
          ⟨"document_deleted".toList, some "todos".toList, none, some "abc".toList⟩).log =
        [LogEntry.subCall "todos".toList 7
          (EmitPayload.obj (some "document_deleted".toList) (some "todos".toList)
            none (some "abc".toList))] := by
  intro c ev m hc hev
  refine ⟨⟨?_, ?_⟩, by decide⟩
  · have hsplit : splitOnColon c = [c] := splitOnColon_no_colon c hc
    simp only [subMatches, encodeKey, hsplit]
    cases m.collection with
    | none => simp
    | some c' => simp
  · intro hne
    have hsplit : splitOnColon (c ++ ':' :: ev) = [c, ev] := by
      rw [splitOnColon_append c ev hc, splitOnColon_no_colon ev hev]
    simp only [subMatches, encodeKey, hne, Bool.false_eq_true, if_false, hsplit]
    cases m.collection with
    | none => simp
    | some c' => simp [hne]

/-- Claim C7, witness: the amended matching rule instantiated at the colon-free
collection "todos" with event type "deleted", against the message
{type: deleted, collection: todos}. -/
theorem subscription_match_amended_witness :
    subMatches (encodeKey "todos".toList (some "deleted".toList))
        ⟨"deleted".toList, some "todos".toList, none, none⟩ = true ↔
      ((⟨"deleted".toList, some "todos".toList, none, none⟩ : WsMsg).collection =
        some "todos".toList ∧
       "deleted".toList = (⟨"deleted".toList, some "todos".toList, none, none⟩ : WsMsg).type) :=
  (subscription_match_amended "todos".toList "deleted".toList
    ⟨"deleted".toList, some "todos".toList, none, none⟩
    (by decide) (by decide)).1.2 (by decide)

/-! ## Claim C8: removal during dispatch -/

/-- Claim C8: the subscription loop is a total function (removal during a
dispatch never raises an error), and once a key is absent from the
subscription map — in particular right after a callback body removed it
mid-dispatch — the remaining loop steps never invoke it, the key is still
absent when the loop ends (callback bodies can only delete, never add),
and any later inbound-message dispatch skips it as well. -/
theorem unsubscribe_mid_dispatch_safe :
    ∀ (cl : Client) (m : WsMsg) (entries : List (JStr × Callback)) (k : JStr),
      mapFind cl.subscriptions k = none →
      (∃ tail, (dispatchSubs m entries cl).log = cl.log ++ tail ∧
        ∀ x ∈ tail, isSubCallFor k x = false) ∧
      mapFind (dispatchSubs m entries cl).subscriptions k = none ∧
      ∀ (m' : WsMsg),
        (∃ tail2, (handleWebSocketMessage (dispatchSubs m entries cl) m').log =
          (dispatchSubs m entries cl).log ++ tail2 ∧
          ∀ x ∈ tail2, isSubCallFor k x = false) ∧
        mapFind (handleWebSocketMessage (dispatchSubs m entries cl) m').subscriptions k = none := by
  intro cl m entries k h
  obtain ⟨_, habs⟩ := dispatchSubs_fields m k entries cl
  obtain ⟨⟨tail, hlog, htail⟩, habs2⟩ := habs h
  exact ⟨⟨tail, hlog, htail⟩, habs2,
    fun m' => hwm_absent (dispatchSubs m entries cl) m' k habs2⟩

/-- Claim C8, witness: the callback registered under key "t" removes the
subscription keyed "t:x" while a dispatch is in progress; from the state just
after that removal, with the loop still to visit the snapshot entries, the
removed key is never invoked and stays absent, also across a following
dispatch. -/
theorem unsubscribe_mid_dispatch_safe_witness :
    mapFind (dispatchSubs ⟨"x".toList, some "t".toList, none, none⟩
        [("t".toList, ⟨1, [("t".toList, some "x".toList)], false⟩),
         ("t:x".toList, ⟨2, [], false⟩)]
        (unsubscribe
          ⟨[("t".toList, ⟨1, [("t".toList, some "x".toList)], false⟩),
            ("t:x".toList, ⟨2, [], false⟩)], [], true, 0, [], [], []⟩
          "t".toList (some "x".toList))).subscriptions "t:x".toList = none :=
  (unsubscribe_mid_dispatch_safe
    (unsubscribe
      ⟨[("t".toList, ⟨1, [("t".toList, some "x".toList)], false⟩),
        ("t:x".toList, ⟨2, [], false⟩)], [], true, 0, [], [], []⟩
      "t".toList (some "x".toList))
    ⟨"x".toList, some "t".toList, none, none⟩
    [("t".toList, ⟨1, [("t".toList, some "x".toList)], false⟩),
     ("t:x".toList, ⟨2, [], false⟩)]
    "t:x".toList (by decide)).2.1

/-! ## Claim C9: emit survives throwing handlers -/

/-- Claim C9: emit invokes every handler registered for the event, in
registration order, whatever the handlers' throw behaviour — a throwing
handler is caught (and logged) and the remaining handlers still run, and
emit, being a total function here, returns normally.  Concretely, with two
handlers of which the first throws, both are invoked. -/
theorem emit_invokes_all_handlers :
    (∀ (cl : Client) (event : JStr) (payload : EmitPayload),
      invokedFor event (emit cl event payload).log =
        invokedFor event cl.log ++ (handlersOf cl event).map Callback.id) ∧
    invokedFor "boom".toList
      (emit ⟨[], [("boom".toList, [⟨1, [], true⟩, ⟨2, [], false⟩])], false, 0, [], [], []⟩
        "boom".toList EmitPayload.undef).log = [1, 2] := by
  refine ⟨?_, by decide⟩
  intro cl event payload
  exact (emit_fields cl event payload []).2.1

/-! ## Claim C10: todo statistics -/

/-- Claim C10: for every todo list, getTodoStats satisfies
total = completed + pending, where completed counts exactly the todos with a
truthy completed field and pending counts exactly those with a falsy one. -/
theorem getTodoStats_total_split :
    ∀ (todos : List Todo),
      (getTodoStats todos).total = (getTodoStats todos).completed + (getTodoStats todos).pending ∧
      (getTodoStats todos).completed =
        (todos.filter (fun t : Todo => jsTruthy t.completed)).length ∧
      (getTodoStats todos).pending =
        (todos.filter (fun t : Todo => !jsTruthy t.completed)).length := by
  intro todos
  refine ⟨?_, rfl, rfl⟩
  exact @List.length_eq_length_filter_add Todo todos (fun t : Todo => jsTruthy t.completed)

end MiniappClient
